import Mathlib

/-!
Verification of the TripMakerWeb-BE user-store / credential / token service
against its design specification.

The definitions below are a shallow embedding of the JavaScript source
(server.js and the v2 server embedded in ANSWER_TO_YOUR_QUESTION.md).
JavaScript strings handled by the credential codec are embedded as
List Char; the filesystem is an explicit record of per-path contents and
writability; the module-level promise chain (writeQueue) is embedded as a
trace semantics over read and write events.
-/

deriving instance DecidableEq for Except

set_option maxRecDepth 20000

namespace TripMaker

/-! ## String helpers (JS semantics for the ASCII range)

normalizeEmail in the source is String(email || "").trim().toLowerCase().
We embed trim and toLowerCase character-by-character so that every theorem
can be evaluated by kernel reduction.
-/

/-- JS whitespace test used by String.prototype.trim, restricted to the
common ASCII whitespace characters. -/
def isSpaceChar (c : Char) : Bool :=
  c = ' ' || c = '\t' || c = '\n' || c = '\r'

/-- ASCII lowering, the effect of String.prototype.toLowerCase on the
ASCII range. -/
def toLowerChar (c : Char) : Char :=
  if 'A' ≤ c ∧ c ≤ 'Z' then Char.ofNat (c.toNat + 32) else c

/-- Drop leading and trailing whitespace, as String.prototype.trim does. -/
def trimChars (cs : List Char) : List Char :=
  ((cs.dropWhile isSpaceChar).reverse.dropWhile isSpaceChar).reverse

/-- Embeds normalizeEmail from the source:
String(email || "").trim().toLowerCase().  A missing (undefined/null) or
empty email is the empty string. -/
def normalizeEmail (email : Option String) : String :=
  ⟨(trimChars (email.getD "").data).map toLowerChar⟩

/-! ## Credential codec (hashPassword / verifyPassword)

The source uses crypto.scryptSync, crypto.randomBytes, Buffer.from(-, "hex")
and crypto.timingSafeEqual.  Bytes are embedded as Nat (each < 256 where it
matters), byte strings as List Nat, JS strings as List Char.
crypto.scryptSync is an external primitive; it is embedded as a
deterministic, collision-free key derivation (an injective byte encoding of
the password and salt), the idealisation under which a key derivation
function is specified.  The randomness of crypto.randomBytes is supplied to
hashPassword as an explicit argument.
-/

def PASSWORD_SALT_BYTES : Nat := 16

def PASSWORD_KEYLEN : Nat := 64

/-- Lower-case hexadecimal digit for a value below 16 (Buffer.toString("hex")
produces lower-case digits). -/
def hexDigit (n : Nat) : Char :=
  if n < 10 then Char.ofNat (48 + n)
  else if n < 16 then Char.ofNat (87 + n)
  else '0'

/-- Value of one hexadecimal character, accepting both cases, as
Buffer.from(-, "hex") does. -/
def hexVal (c : Char) : Option Nat :=
  if 48 ≤ c.toNat ∧ c.toNat ≤ 57 then some (c.toNat - 48)
  else if 97 ≤ c.toNat ∧ c.toNat ≤ 102 then some (c.toNat - 87)
  else if 65 ≤ c.toNat ∧ c.toNat ≤ 70 then some (c.toNat - 55)
  else none

/-- Buffer.prototype.toString("hex"): two lower-case hex characters per
byte. -/
def hexEncode : List Nat → List Char
  | [] => []
  | b :: bs => hexDigit (b / 16) :: hexDigit (b % 16) :: hexEncode bs

/-- Buffer.from(s, "hex"): decodes pairs of hex characters and truncates at
the first invalid pair or dangling character (it never throws). -/
def bufFromHex : List Char → List Nat
  | c1 :: c2 :: rest =>
    match hexVal c1, hexVal c2 with
    | some a, some b => (16 * a + b) :: bufFromHex rest
    | _, _ => []
  | _ => []

/-- Three-byte base-256 encoding of one character codepoint (codepoints are
below 0x110000 < 256^3, so the width-3 encoding is lossless). -/
def charBytes (c : Char) : List Nat :=
  [c.toNat / 65536, c.toNat / 256 % 256, c.toNat % 256]

/-- Byte encoding of a JS string, three bytes per character. -/
def strBytes : List Char → List Nat
  | [] => []
  | c :: cs => charBytes c ++ strBytes cs

/-- Embedding of crypto.scryptSync(password, salt, keylen): a deterministic
key derivation modelled as the injective byte encoding of password and salt
(the collision-free idealisation of the external KDF; the keylen argument
only selects the real function's output size and is ignored by the model). -/
def scryptSync (password salt : List Char) (_keylen : Nat) : List Nat :=
  strBytes password ++ strBytes salt

/-- crypto.timingSafeEqual: equality of two byte buffers, raising (the
error branch) when the lengths differ, exactly as the Node primitive
does. -/
def timingSafeEqual (a b : List Nat) : Except String Bool :=
  if a.length = b.length then .ok (a == b)
  else .error "ERR_CRYPTO_TIMING_SAFE_EQUAL_LENGTH"

/-- hashPassword from the source; the fresh random salt bytes produced by
crypto.randomBytes(PASSWORD_SALT_BYTES) are passed in explicitly.  Returns
saltHex ++ ":" ++ derivedKeyHex. -/
def hashPassword (saltBytes : List Nat) (password : List Char) : List Char :=
  let salt := hexEncode saltBytes
  let derivedKey := scryptSync password salt PASSWORD_KEYLEN
  salt ++ ':' :: hexEncode derivedKey

/-- String.prototype.split(":"): every occurrence splits; the result is
never empty. -/
def splitColon : List Char → List (List Char)
  | [] => [[]]
  | c :: rest =>
    if c = ':' then [] :: splitColon rest
    else
      match splitColon rest with
      | [] => [[c]]
      | h :: t => (c :: h) :: t

/-- String.prototype.includes(":"). -/
def includesColon : List Char → Bool
  | [] => false
  | c :: rest => c = ':' || includesColon rest

/-- verifyPassword from the source.  The Except layer records whether any
of the wrapped Node primitives raised: the source guards the
timingSafeEqual length precondition, so the error branch is unreachable,
which is exactly claim C6.  The !stored guard of the source catches the
empty (falsy) string. -/
def verifyPassword (password stored : List Char) : Except String Bool :=
  if stored = [] || !includesColon stored then .ok false
  else
    let parts := splitColon stored
    let salt := parts.headD []
    let hash := (parts.drop 1).headD []
    if salt = [] || hash = [] then .ok false
    else
      let derivedKey := scryptSync password salt PASSWORD_KEYLEN
      let storedBuffer := bufFromHex hash
      if storedBuffer.length ≠ derivedKey.length then .ok false
      else timingSafeEqual storedBuffer derivedKey

/-! ## Data model

The stored user collection is a JSON array of user objects.  A stored
profile object may lack any of its fields (legacy records), hence the
Option-typed fields; a record stored without a profile key corresponds to
the all-none profile, which merges with the defaults exactly as the spread
of the empty object does in the source.
-/

/-- A stored profile object; each field may be missing from disk. -/
structure Profile where
  phone : Option String
  country : Option String
  language : Option String
  currencyType : Option String
deriving DecidableEq, Repr

/-- DEFAULT_PROFILE from the source. -/
def DEFAULT_PROFILE : Profile :=
  { phone := some "", country := some "", language := some "en",
    currencyType := some "USD" }

/-- A stored user record.  passwordHash is the credential codec string. -/
structure UserRecord where
  id : String
  email : String
  passwordHash : List Char
  profile : Profile
  createdAt : String
deriving DecidableEq, Repr

/-- ensureProfile from the source: user.profile = {...DEFAULT_PROFILE,
...(user.profile || {})}; keys present in the stored profile win, missing
keys come from the defaults. -/
def ensureProfile (p : Profile) : Profile :=
  { phone := some (p.phone.getD ""),
    country := some (p.country.getD ""),
    language := some (p.language.getD "en"),
    currencyType := some (p.currencyType.getD "USD") }

/-- Body of the 200 response of the profile endpoints. -/
structure ProfileResponse where
  id : String
  email : String
  phone : String
  country : String
  language : String
  currencyType : String
  createdAt : String
deriving DecidableEq, Repr

/-- buildProfileResponse from the source. -/
def buildProfileResponse (u : UserRecord) : ProfileResponse :=
  let p := ensureProfile u.profile
  { id := u.id, email := u.email,
    phone := p.phone.getD "", country := p.country.getD "",
    language := p.language.getD "en",
    currencyType := p.currencyType.getD "USD",
    createdAt := u.createdAt }

/-! ## Tokens (jsonwebtoken)

jwt.sign / jwt.verify are external primitives of the jsonwebtoken library;
they are embedded by their documented contract: a token is either a
malformed string or a payload together with a signature over the payload
and secret; verify checks the signature first and only then the exp claim,
returning the payload only when both pass.  Time is an explicit argument.
-/

/-- Claims carried by the tokens the server issues. -/
structure TokenPayload where
  id : String
  email : String
  iat : Nat
  exp : Nat
deriving DecidableEq, Repr

/-- Byte encoding of a payload, used by the signature model. -/
def payloadBytes (p : TokenPayload) : List Nat :=
  strBytes p.id.data ++ 1114112 :: strBytes p.email.data ++
    1114112 :: [p.iat, p.exp]

/-- Embedding of the HMAC signature of jsonwebtoken: determined by the
secret and the signed payload. -/
def signature (secret : Nat) (p : TokenPayload) : List Nat :=
  secret :: payloadBytes p

/-- A presented bearer token: either a string that does not even parse as
a JWT, or a payload with an attached (possibly wrong) signature. -/
inductive Token
  | malformed (raw : String)
  | signed (payload : TokenPayload) (sig : List Nat)
deriving DecidableEq, Repr

/-- Failure kinds of jwt.verify: JsonWebTokenError (malformed or
mis-signed) and TokenExpiredError. -/
inductive TokenError
  | invalid
  | expired
deriving DecidableEq, Repr

/-- Embedding of jwt.verify(token, secret): signature validation first, so
no claim of the body is trusted before it succeeds; a well-signed token
whose exp is not after the current time fails with the expired kind. -/
def jwtVerify (secret now : Nat) : Token → Except TokenError TokenPayload
  | .malformed _ => .error .invalid
  | .signed p sig =>
    if sig ≠ signature secret p then .error .invalid
    else if p.exp ≤ now then .error .expired
    else .ok p

/-- JWT_EXPIRES_IN default of the source: "7d". -/
def JWT_EXPIRES_IN_SECONDS : Nat := 7 * 24 * 60 * 60

/-- generateToken from the source: jwt.sign({id, email}, JWT_SECRET,
{expiresIn: JWT_EXPIRES_IN}); issuance time is an explicit argument. -/
def generateToken (secret now : Nat) (u : UserRecord) : Token :=
  let p : TokenPayload :=
    { id := u.id, email := u.email, iat := now,
      exp := now + JWT_EXPIRES_IN_SECONDS }
  .signed p (signature secret p)

/-! ## Authentication middleware

The Authorization header is embedded after the two string operations the
source performs on it: none is an absent header, some none a header whose
split(" ")[1] is missing, some (some t) a header carrying bearer token t.
-/

/-- optionalAuth from the source: every path calls next(); the decoded
payload (req.user) is the returned value, and every verification failure
is swallowed, leaving req.user unset. -/
def optionalAuth (secret now : Nat) (authHeader : Option (Option Token)) :
    Option TokenPayload :=
  match authHeader with
  | none => none
  | some none => none
  | some (some t) =>
    match jwtVerify secret now t with
    | .ok decoded => some decoded
    | .error _ => none

/-- Outcome of requireAuth: either a 401 rejection or control passed to
the handler with req.user set. -/
inductive AuthOutcome
  | reject (status : Nat) (msg : String)
  | proceed (user : Option TokenPayload)
deriving DecidableEq, Repr

/-- requireAuth from the source.  Note that the catch branch produces one
single response for every verification failure. -/
def requireAuth (secret now : Nat) (authHeader : Option (Option Token)) :
    AuthOutcome :=
  match authHeader with
  | none => .reject 401 "Authorization token required."
  | some none => .reject 401 "Authorization token required."
  | some (some t) =>
    match jwtVerify secret now t with
    | .ok decoded => .proceed (some decoded)
    | .error _ => .reject 401 "Invalid or expired token."

/-! ## Route handlers

The handler bodies of POST /register, POST /login, GET /profile/:id and
PUT /profile/:id, embedded as pure functions over the parsed user
collection.  The pieces of ambient nondeterminism a handler consumes
(crypto.randomUUID, crypto.randomBytes, new Date, the clock) are explicit
arguments.  express-validator runs upstream of these bodies and is out of
scope, exactly as the spec declares request-body validation to be.
-/

/-- The ambient inputs consumed by one registration: the fresh UUID, the
fresh salt bytes, the createdAt timestamp string, the JWT secret and the
issuance epoch time. -/
structure RegisterEnv where
  newId : String
  saltBytes : List Nat
  createdAt : String
  secret : Nat
  nowEpoch : Nat
deriving DecidableEq, Repr

/-- Responses of the POST /register handler body. -/
inductive RegisterResult
  | badRequest (msg : String)
  | duplicate (msg : String)
  | created (id email : String) (token : Token) (createdAt : String)
deriving DecidableEq, Repr

/-- POST /register handler body: normalizes the email, rejects a missing
email or password, signals the duplicate on an existing record with the
same normalized email without writing, and otherwise appends the new record
and answers 201.  Returns the collection passed to writeUsers (unchanged
when no write happens) with the response. -/
def register (env : RegisterEnv) (users : List UserRecord)
    (rawEmail rawPassword : Option String) :
    List UserRecord × RegisterResult :=
  let email := normalizeEmail rawEmail
  let password := rawPassword.getD ""
  if email = "" || password = "" then
    (users, .badRequest "Email and password are required.")
  else
    match users.find? (fun u => u.email == email) with
    | some _ => (users, .duplicate "Email is already registered.")
    | none =>
      let newUser : UserRecord :=
        { id := env.newId, email := email,
          passwordHash := hashPassword env.saltBytes password.data,
          profile := DEFAULT_PROFILE, createdAt := env.createdAt }
      (users ++ [newUser],
       .created newUser.id newUser.email
         (generateToken env.secret env.nowEpoch newUser) newUser.createdAt)

/-- Responses of the POST /login handler body. -/
inductive LoginResult
  | badRequest (msg : String)
  | unauthorized (msg : String)
  | success (id email : String) (token : Token)
deriving DecidableEq, Repr

/-- POST /login handler body: one single response serves both the
no-such-email case and the failed-verification case. -/
def login (secret now : Nat) (users : List UserRecord)
    (rawEmail rawPassword : Option String) : LoginResult :=
  let email := normalizeEmail rawEmail
  let password := rawPassword.getD ""
  if email = "" || password = "" then
    .badRequest "Email and password are required."
  else
    match users.find? (fun u => u.email == email) with
    | none => .unauthorized "Invalid credentials."
    | some u =>
      match verifyPassword password.data u.passwordHash with
      | .ok true => .success u.id u.email (generateToken secret now u)
      | _ => .unauthorized "Invalid credentials."

/-- Responses of the two profile endpoints. -/
inductive ProfileResult
  | notFound (msg : String)
  | badRequest (msg : String)
  | conflict (msg : String)
  | ok (resp : ProfileResponse)
deriving DecidableEq, Repr

/-- GET /profile/:id handler body; the req.user set by optionalAuth is
received but, as in the source, never read. -/
def getProfileHandler (_reqUser : Option TokenPayload)
    (users : List UserRecord) (userId : String) : ProfileResult :=
  match users.find? (fun u => u.id == userId) with
  | none => .notFound "User not found."
  | some u => .ok (buildProfileResponse u)

/-- The GET /profile/:id route: optionalAuth runs, its result is handed to
the handler. -/
def getProfileRoute (secret now : Nat) (authHeader : Option (Option Token))
    (users : List UserRecord) (userId : String) : ProfileResult :=
  getProfileHandler (optionalAuth secret now authHeader) users userId

/-- Parsed body of a PUT /profile/:id request; a field is some v exactly
when the corresponding key is an own property of req.body (a null value
reaches the handler as the empty string through String(v ?? "")). -/
structure UpdateBody where
  email : Option String
  phone : Option String
  country : Option String
  language : Option String
  currencyType : Option String
deriving DecidableEq, Repr

/-- The field-by-field hasOwnProperty updates of the PUT handler, after the
ensureProfile merge. -/
def applyProfileFields (body : UpdateBody) (u : UserRecord) : UserRecord :=
  let p0 := ensureProfile u.profile
  let p1 := match body.phone with
    | some v => { p0 with phone := some v }
    | none => p0
  let p2 := match body.country with
    | some v => { p1 with country := some v }
    | none => p1
  let p3 := match body.language with
    | some v => { p2 with language := some v }
    | none => p2
  let p4 := match body.currencyType with
    | some v => { p3 with currencyType := some v }
    | none => p3
  { u with profile := p4 }

/-- The source mutates the record object returned by users.find, i.e. the
first record with the given id; embedded as replacing that first match. -/
def replaceById (users : List UserRecord) (userId : String)
    (u : UserRecord) : List UserRecord :=
  match users with
  | [] => []
  | w :: rest =>
    if w.id == userId then u :: rest
    else w :: replaceById rest userId u

/-- PUT /profile/:id handler body: 404 on an unknown id; when the email key
is supplied, a normalized-empty email is a 400, an email taken by another
record (self excluded) a 409, otherwise the email is reassigned; the
supplied profile fields are applied over the ensureProfile merge; the
collection is written back and the updated view returned. -/
def updateProfile (users : List UserRecord) (userId : String)
    (body : UpdateBody) : List UserRecord × ProfileResult :=
  match users.find? (fun u => u.id == userId) with
  | none => (users, .notFound "User not found.")
  | some u =>
    let emailStep : Except ProfileResult UserRecord :=
      match body.email with
      | none => .ok u
      | some rawEmail =>
        let normalizedEmail := normalizeEmail (some rawEmail)
        if normalizedEmail = "" then
          .error (.badRequest "Email must be provided.")
        else if (users.find? (fun c =>
            c.email == normalizedEmail && c.id != userId)).isSome then
          .error (.conflict "Email is already registered.")
        else .ok { u with email := normalizedEmail }
    match emailStep with
    | .error r => (users, r)
    | .ok u1 =>
      let u2 := applyProfileFields body u1
      (replaceById users userId u2, .ok (buildProfileResponse u2))

/-- PUT /profile/:id handler with the req.user argument it never reads. -/
def putProfileHandler (_reqUser : Option TokenPayload)
    (users : List UserRecord) (userId : String) (body : UpdateBody) :
    List UserRecord × ProfileResult :=
  updateProfile users userId body

/-- The PUT /profile/:id route: optionalAuth, then the handler. -/
def putProfileRoute (secret now : Nat) (authHeader : Option (Option Token))
    (users : List UserRecord) (userId : String) (body : UpdateBody) :
    List UserRecord × ProfileResult :=
  putProfileHandler (optionalAuth secret now authHeader) users userId body

/-! ## Durable store (ensureUsersFile / readUsers / writeUsers)

The filesystem is embedded as the parsed content of each path together
with a writability flag per path; an unwritable path raises the
EROFS/EPERM condition recognised by isReadonlyError whenever the file
there must be created or replaced (mkdir of a missing parent on a
read-only filesystem raises the same condition and is folded into the
same flag).  The module-level usersFilePath variable lives in StoreState.
The promise-chain ordering of writeUsers is treated separately by the
trace semantics below; here each operation is the effect its queued body
has once it runs.
-/

/-- Parsed content of the backing file, by the cases readUsers
distinguishes: absent file, whitespace-only content, a JSON array of
records, JSON of a non-array shape, or text on which JSON.parse throws
with the given diagnostic. -/
inductive FileContent
  | absent
  | blank
  | arr (users : List UserRecord)
  | notArray
  | corrupt (diagnostic : String)
deriving DecidableEq, Repr

/-- The filesystem abstraction the store depends on. -/
structure FileSystem where
  contents : String → FileContent
  writable : String → Bool

/-- Failures a store operation can surface: the EROFS/EPERM condition at a
path, a JSON.parse failure escalated by readUsers, or another I/O error. -/
inductive StoreError
  | readonlyFs (path : String)
  | corruptStore (diagnostic : String)
  | ioError (msg : String)
deriving DecidableEq, Repr

/-- The store state: the active path (the source's module-level
usersFilePath) and the filesystem. -/
structure StoreState where
  usersFilePath : String
  fs : FileSystem

/-- The scratch path path.join(os.tmpdir(), "tripmaker-users.json"). -/
def TMP_USER_DB_PATH : String := "/tmp/tripmaker-users.json"

/-- The body of ensureUsersFile at one fixed path: create the parent
directory and an empty-array file if absent; surface the read-only
condition when creation is needed but the path is unwritable. -/
def ensureAt (fs : FileSystem) (path : String) :
    Except StoreError FileSystem :=
  match fs.contents path with
  | .absent =>
    if fs.writable path then
      .ok { fs with
            contents := fun q => if q = path then .arr [] else fs.contents q }
    else .error (.readonlyFs path)
  | _ => .ok fs

/-- ensureUsersFile from the source: on a read-only failure at a path that
is not yet the scratch path, permanently reassign usersFilePath to the
scratch path and run once more (the recursive call cannot switch again,
so a second failure propagates). -/
def ensureUsersFile (s : StoreState) : Except StoreError StoreState :=
  match ensureAt s.fs s.usersFilePath with
  | .ok fs1 => .ok { s with fs := fs1 }
  | .error e =>
    if s.usersFilePath ≠ TMP_USER_DB_PATH then
      match ensureAt s.fs TMP_USER_DB_PATH with
      | .ok fs1 => .ok { usersFilePath := TMP_USER_DB_PATH, fs := fs1 }
      | .error e1 => .error e1
    else .error e

/-- readUsers from the source (its await of the pending writeQueue is the
ordering handled by the trace semantics): ensure the file, read it, treat
blank content as the empty collection, escalate a JSON.parse failure with
the "Invalid users data file" prefix, and silently return the empty
collection for parsed JSON that is not an array. -/
def readUsers (s : StoreState) :
    Except StoreError (List UserRecord × StoreState) :=
  match ensureUsersFile s with
  | .error e => .error e
  | .ok s1 =>
    match s1.fs.contents s1.usersFilePath with
    | .absent => .error (.ioError "ENOENT")
    | .blank => .ok ([], s1)
    | .arr users => .ok (users, s1)
    | .notArray => .ok ([], s1)
    | .corrupt d =>
      .error (.corruptStore ("Invalid users data file: " ++ d))

/-- One fs.writeFile of the serialized collection at a fixed path. -/
def writeAt (fs : FileSystem) (path : String) (users : List UserRecord) :
    Except StoreError FileSystem :=
  if fs.writable path then
    .ok { fs with
          contents := fun q => if q = path then .arr users else fs.contents q }
  else .error (.readonlyFs path)

/-- writeUsers from the source, as the effect of its queued body: ensure
the file, write the whole collection; on a read-only failure at a path
that is not yet the scratch path, reassign usersFilePath to the scratch
path, ensure there and write once more; any further failure propagates. -/
def writeUsers (s : StoreState) (users : List UserRecord) :
    Except StoreError StoreState :=
  match ensureUsersFile s with
  | .error e => .error e
  | .ok s1 =>
    match writeAt s1.fs s1.usersFilePath users with
    | .ok fs2 => .ok { s1 with fs := fs2 }
    | .error e =>
      if s1.usersFilePath ≠ TMP_USER_DB_PATH then
        match ensureUsersFile
            { usersFilePath := TMP_USER_DB_PATH, fs := s1.fs } with
        | .error e1 => .error e1
        | .ok s2 =>
          match writeAt s2.fs TMP_USER_DB_PATH users with
          | .ok fs2 => .ok { s2 with fs := fs2 }
          | .error e1 => .error e1
      else .error e

/-! ## The write queue as a trace semantics

The source serializes persistence through one module-level promise chain:
writeQueue = writeQueue.then(write body), and readUsers awaits the chain
before reading.  Consequently a handler is a read event (its readUsers
resolving: the snapshot it receives is the collection as of all writes
enqueued so far) followed, if the handler reaches writeUsers, by a write
event (its queued body replacing the whole collection with the one
computed from its own snapshot).  The event loop may interleave the events
of concurrent handlers in any order in which each handler's read precedes
its own write; writes apply in enqueue (FIFO) order, which is the trace
order.
-/

/-- A queued read-modify-write handler over the parsed collection: from
its snapshot it either produces the full collection it writes back, or
performs no write (the handler returned before reaching writeUsers). -/
def HandlerFn := List UserRecord → Option (List UserRecord)

/-- Events of one run: handler i resolving its read, handler i's queued
write executing. -/
inductive QEvent
  | read (i : Nat)
  | write (i : Nat)
deriving DecidableEq, Repr

/-- State of a run: the persisted collection and the snapshot each handler
has read so far. -/
structure QueueTraceState where
  file : List UserRecord
  snaps : Nat → Option (List UserRecord)

/-- One event: a read stores the current collection as handler i's
snapshot; a write replaces the collection with the one handler i computed
from its snapshot (no effect if the handler performed no write). -/
def qStep (ops : Nat → HandlerFn) (st : QueueTraceState) :
    QEvent → QueueTraceState
  | .read i =>
    { st with snaps := fun j => if j = i then some st.file else st.snaps j }
  | .write i =>
    match st.snaps i with
    | none => st
    | some snap =>
      match ops i snap with
      | none => st
      | some users => { st with file := users }

/-- Run a trace of events from an initial collection. -/
def qRun (ops : Nat → HandlerFn) (init : List UserRecord)
    (tr : List QEvent) : QueueTraceState :=
  tr.foldl (qStep ops) { file := init, snaps := fun _ => none }

/-- No event occurs twice in the trace. -/
def nodupEvents : List QEvent → Bool
  | [] => true
  | e :: rest => !rest.contains e && nodupEvents rest

/-- A trace the promise-chain code can produce: no duplicate events, and
each handler's write is preceded by its read. -/
def admissible (tr : List QEvent) : Bool :=
  nodupEvents tr &&
  tr.all fun e =>
    match e with
    | .read _ => true
    | .write i =>
      tr.contains (.read i) &&
      Nat.blt (tr.indexOf (.read i)) (tr.indexOf (.write i))

/-- The POST /register handler as a queued unit: the write happens exactly
when the handler reaches writeUsers, i.e. on the created path. -/
def registerOp (env : RegisterEnv) (rawEmail rawPassword : Option String) :
    HandlerFn :=
  fun users =>
    match register env users rawEmail rawPassword with
    | (users1, .created _ _ _ _) => some users1
    | _ => none

/-- The PUT /profile/:id handler as a queued unit: the write happens
exactly on the 200 path. -/
def updateProfileOp (userId : String) (body : UpdateBody) : HandlerFn :=
  fun users =>
    match updateProfile users userId body with
    | (users1, .ok _) => some users1
    | _ => none

/-! ## Lemmas about the credential codec -/

theorem charToNat_lt (c : Char) : c.toNat < 1114112 := by
  rcases c.valid with h | h
  · exact Nat.lt_trans h (by norm_num)
  · exact h.2

theorem strBytes_length (cs : List Char) :
    (strBytes cs).length = 3 * cs.length := by
  induction cs with
  | nil => rfl
  | cons c cs ih => simp [strBytes, charBytes, ih]; omega

theorem strBytes_inj {a b : List Char} (h : strBytes a = strBytes b) :
    a = b := by
  induction a generalizing b with
  | nil =>
    cases b with
    | nil => rfl
    | cons d ds => simp [strBytes, charBytes] at h
  | cons c cs ih =>
    cases b with
    | nil => simp [strBytes, charBytes] at h
    | cons d ds =>
      simp only [strBytes, charBytes, List.cons_append, List.nil_append,
        List.cons.injEq] at h
      obtain ⟨h1, h2, h3, h4⟩ := h
      have hc := charToNat_lt c
      have hd := charToNat_lt d
      have : c.toNat = d.toNat := by omega
      have hcd : c = d := Char.eq_of_val_eq (UInt32.ext this)
      rw [hcd, ih h4]

theorem strBytes_lt256 (cs : List Char) : ∀ x ∈ strBytes cs, x < 256 := by
  induction cs with
  | nil => simp [strBytes]
  | cons c cs ih =>
    intro x hx
    simp only [strBytes, charBytes, List.cons_append, List.nil_append,
      List.mem_cons] at hx
    have hc := charToNat_lt c
    rcases hx with h | h | h | h
    · omega
    · omega
    · omega
    · exact ih x h

theorem strBytes_ne_nil {cs : List Char} (h : cs ≠ []) :
    strBytes cs ≠ [] := by
  cases cs with
  | nil => exact absurd rfl h
  | cons c cs => simp [strBytes, charBytes]

theorem scryptSync_inj {p q salt : List Char} {k : Nat}
    (h : scryptSync p salt k = scryptSync q salt k) : p = q := by
  unfold scryptSync at h
  have hlen0 := congrArg List.length h
  simp only [List.length_append, strBytes_length] at hlen0
  have hlen : (strBytes p).length = (strBytes q).length := by
    simp only [strBytes_length]; omega
  exact strBytes_inj (List.append_inj h hlen).1

theorem hexVal_hexDigit : ∀ n < 16, hexVal (hexDigit n) = some n := by decide

theorem hexDigit_ne_colon (n : Nat) : hexDigit n ≠ ':' := by
  by_cases h2 : n < 16
  · have h : ∀ m < 16, hexDigit m ≠ ':' := by decide
    exact h n h2
  · have h1 : ¬ n < 10 := by omega
    simp [hexDigit, h1, h2]

theorem hexEncode_colonFree (bs : List Nat) :
    ∀ c ∈ hexEncode bs, c ≠ ':' := by
  induction bs with
  | nil => simp [hexEncode]
  | cons b bs ih =>
    intro c hc
    simp only [hexEncode, List.mem_cons] at hc
    rcases hc with h | h | h
    · rw [h]; exact hexDigit_ne_colon _
    · rw [h]; exact hexDigit_ne_colon _
    · exact ih c h

theorem hexEncode_ne_nil {bs : List Nat} (h : bs ≠ []) :
    hexEncode bs ≠ [] := by
  cases bs with
  | nil => exact absurd rfl h
  | cons b bs => simp [hexEncode]

theorem bufFromHex_hexEncode (bs : List Nat) (h : ∀ b ∈ bs, b < 256) :
    bufFromHex (hexEncode bs) = bs := by
  induction bs with
  | nil => rfl
  | cons b bs ih =>
    have hb : b < 256 := h b (by simp)
    have h1 : b / 16 < 16 := by omega
    have h2 : b % 16 < 16 := by omega
    simp only [hexEncode, bufFromHex, hexVal_hexDigit _ h1,
      hexVal_hexDigit _ h2, ih (fun x hx => h x (by simp [hx]))]
    simp only [List.cons.injEq, and_true]
    omega

theorem includesColon_append_colon (a b : List Char) :
    includesColon (a ++ ':' :: b) = true := by
  induction a with
  | nil => simp [includesColon]
  | cons c cs ih => simp [includesColon, ih]

theorem splitColon_colonFree (l : List Char) (h : ∀ c ∈ l, c ≠ ':') :
    splitColon l = [l] := by
  induction l with
  | nil => rfl
  | cons c cs ih =>
    have hc : c ≠ ':' := h c (by simp)
    have ih2 := ih (fun x hx => h x (by simp [hx]))
    simp [splitColon, hc, ih2]

theorem splitColon_append (a b : List Char) (h : ∀ c ∈ a, c ≠ ':') :
    splitColon (a ++ ':' :: b) = a :: splitColon b := by
  induction a with
  | nil => simp [splitColon]
  | cons c cs ih =>
    have hc : c ≠ ':' := h c (by simp)
    have ih2 := ih (fun x hx => h x (by simp [hx]))
    simp [splitColon, hc, ih2]

/-- Auxiliary: verification of a freshly produced hash, stepping through
verifyPassword against the exact shape hashPassword emits.  The salt bytes
are those of crypto.randomBytes: non-empty and below 256. -/
theorem verifyPassword_hashPassword (saltBytes : List Nat) (p q : List Char)
    (hsalt : saltBytes ≠ []) (_hbytes : ∀ b ∈ saltBytes, b < 256) :
    verifyPassword q (hashPassword saltBytes p) =
      .ok (scryptSync p (hexEncode saltBytes) PASSWORD_KEYLEN ==
           scryptSync q (hexEncode saltBytes) PASSWORD_KEYLEN) := by
  have hcfSalt : ∀ c ∈ hexEncode saltBytes, c ≠ ':' :=
    hexEncode_colonFree saltBytes
  have hkeyne :
      scryptSync p (hexEncode saltBytes) PASSWORD_KEYLEN ≠ [] := by
    unfold scryptSync
    intro h0
    exact strBytes_ne_nil (hexEncode_ne_nil hsalt)
      (List.append_eq_nil.mp h0).2
  have hcfKey := hexEncode_colonFree
    (scryptSync p (hexEncode saltBytes) PASSWORD_KEYLEN)
  have hsplit :
      splitColon (hexEncode saltBytes ++ ':' ::
          hexEncode (scryptSync p (hexEncode saltBytes) PASSWORD_KEYLEN)) =
        [hexEncode saltBytes,
         hexEncode (scryptSync p (hexEncode saltBytes) PASSWORD_KEYLEN)] := by
    rw [splitColon_append _ _ hcfSalt, splitColon_colonFree _ hcfKey]
  have hbuf :
      bufFromHex
          (hexEncode (scryptSync p (hexEncode saltBytes) PASSWORD_KEYLEN)) =
        scryptSync p (hexEncode saltBytes) PASSWORD_KEYLEN := by
    apply bufFromHex_hexEncode
    intro x hx
    unfold scryptSync at hx
    rcases List.mem_append.mp hx with h | h
    · exact strBytes_lt256 _ _ h
    · exact strBytes_lt256 _ _ h
  have hinc := includesColon_append_colon (hexEncode saltBytes)
    (hexEncode (scryptSync p (hexEncode saltBytes) PASSWORD_KEYLEN))
  have hne :
      hexEncode saltBytes ++ ':' ::
          hexEncode (scryptSync p (hexEncode saltBytes) PASSWORD_KEYLEN) ≠
        ([] : List Char) := by
    intro h0
    rw [h0] at hinc
    simp [includesColon] at hinc
  have hsaltne := hexEncode_ne_nil hsalt
  have hhexkeyne := hexEncode_ne_nil hkeyne
  unfold hashPassword verifyPassword
  simp only [hinc, hne, hsplit, hbuf, Bool.not_true, Bool.or_false,
    decide_eq_true_eq, if_false, List.headD, List.drop, List.head?]
  rw [if_neg]
  · by_cases hl : (scryptSync p (hexEncode saltBytes) PASSWORD_KEYLEN).length =
        (scryptSync q (hexEncode saltBytes) PASSWORD_KEYLEN).length
    · rw [if_neg (fun hn => hn hl)]
      unfold timingSafeEqual
      rw [if_pos hl]
    · rw [if_pos hl]
      have hne2 : scryptSync p (hexEncode saltBytes) PASSWORD_KEYLEN ≠
          scryptSync q (hexEncode saltBytes) PASSWORD_KEYLEN :=
        fun h => hl (congrArg List.length h)
      rw [beq_eq_false_iff_ne.mpr hne2]
  · simp [hsaltne, hhexkeyne]

/-- C5: hashing then verifying the same plaintext (the empty string
included) succeeds, and verifying any different plaintext against that
stored credential fails, for every salt crypto.randomBytes can produce. -/
theorem C5_hash_verify_roundtrip (saltBytes : List Nat) (p q : List Char)
    (hsalt : saltBytes ≠ []) (hbytes : ∀ b ∈ saltBytes, b < 256) :
    verifyPassword p (hashPassword saltBytes p) = .ok true ∧
    (p ≠ q → verifyPassword q (hashPassword saltBytes p) = .ok false) := by
  constructor
  · rw [verifyPassword_hashPassword saltBytes p p hsalt hbytes]
    simp
  · intro hpq
    rw [verifyPassword_hashPassword saltBytes p q hsalt hbytes]
    have : scryptSync p (hexEncode saltBytes) PASSWORD_KEYLEN ≠
        scryptSync q (hexEncode saltBytes) PASSWORD_KEYLEN := by
      intro h0
      exact hpq (scryptSync_inj h0)
    simp [this]

/-- Witness for C5 at the empty plaintext and a concrete 16-byte salt. -/
theorem C5_hash_verify_roundtrip_witness :
    ((List.replicate 16 7 : List Nat) ≠ [] ∧
      (∀ b ∈ (List.replicate 16 7 : List Nat), b < 256) ∧
      "".data ≠ "pw".data) ∧
    (verifyPassword "".data (hashPassword (List.replicate 16 7) "".data) =
        .ok true ∧
      ("".data ≠ "pw".data →
        verifyPassword "pw".data
            (hashPassword (List.replicate 16 7) "".data) = .ok false)) :=
  ⟨⟨by decide, by decide, by decide⟩,
   C5_hash_verify_roundtrip (List.replicate 16 7) "".data "pw".data
     (by decide) (by decide)⟩

/-- C6: verifyPassword never reaches the raising branch of any wrapped
primitive: it is total with an ok result on every input; a stored value
with no delimiter, or with an empty salt or empty key part, yields ok
false; and a length mismatch between the stored key bytes and the freshly
derived key also yields ok false rather than the raising branch of
timingSafeEqual. -/
theorem C6_verify_never_throws :
    (∀ password stored : List Char,
      ∃ b, verifyPassword password stored = .ok b) ∧
    (∀ password stored : List Char, includesColon stored = false →
      verifyPassword password stored = .ok false) ∧
    (∀ password stored : List Char,
      (splitColon stored).headD [] = [] ∨
        ((splitColon stored).drop 1).headD [] = [] →
      verifyPassword password stored = .ok false) ∧
    (∀ password stored : List Char,
      (bufFromHex (((splitColon stored).drop 1).headD [])).length ≠
        (scryptSync password ((splitColon stored).headD [])
          PASSWORD_KEYLEN).length →
      verifyPassword password stored = .ok false) := by
  refine ⟨?_, ?_, ?_, ?_⟩
  · intro password stored
    unfold verifyPassword
    by_cases h1 : (stored = [] || !includesColon stored) = true
    · rw [if_pos h1]; exact ⟨false, rfl⟩
    · rw [if_neg h1]
      by_cases h2 : ((splitColon stored).headD [] = [] ||
          ((splitColon stored).drop 1).headD [] = []) = true
      · rw [if_pos h2]; exact ⟨false, rfl⟩
      · rw [if_neg h2]
        by_cases h3 :
            (bufFromHex (((splitColon stored).drop 1).headD [])).length ≠
              (scryptSync password ((splitColon stored).headD [])
                PASSWORD_KEYLEN).length
        · rw [if_pos h3]; exact ⟨false, rfl⟩
        · rw [if_neg h3]
          unfold timingSafeEqual
          rw [if_pos (not_not.mp h3)]
          exact ⟨_, rfl⟩
  · intro password stored h
    unfold verifyPassword
    rw [if_pos (by simp [h])]
  · intro password stored h
    unfold verifyPassword
    by_cases h1 : (stored = [] || !includesColon stored) = true
    · rw [if_pos h1]
    · rw [if_neg h1, if_pos (by rcases h with h | h <;> rw [h] <;> simp)]
  · intro password stored h
    unfold verifyPassword
    by_cases h1 : (stored = [] || !includesColon stored) = true
    · rw [if_pos h1]
    · rw [if_neg h1]
      by_cases h2 : ((splitColon stored).headD [] = [] ||
          ((splitColon stored).drop 1).headD [] = []) = true
      · rw [if_pos h2]
      · rw [if_neg h2, if_pos h]

/-- Witness for C6 at concrete malformed and length-mismatched stored
values. -/
theorem C6_verify_never_throws_witness :
    ((∃ b, verifyPassword "x".data "nodelimiter".data = .ok b) ∧
      verifyPassword "x".data "nodelimiter".data = .ok false) ∧
    verifyPassword "x".data ":empty".data = .ok false ∧
    verifyPassword "x".data "aa:bb".data = .ok false :=
  ⟨⟨C6_verify_never_throws.1 "x".data "nodelimiter".data,
    C6_verify_never_throws.2.1 "x".data "nodelimiter".data (by decide)⟩,
   C6_verify_never_throws.2.2.1 "x".data ":empty".data (by decide),
   C6_verify_never_throws.2.2.2 "x".data "aa:bb".data (by decide)⟩

/-- C7: the login handler returns the one undifferentiated 401 response
"Invalid credentials." both when no stored record carries the normalized
email and when verification against the matched record fails; the outcome
never reveals which factor failed.  The hypotheses exclude the upstream
missing-field 400, which the spec assigns to validation. -/
theorem C7_login_undifferentiated (secret now : Nat)
    (users : List UserRecord) (rawEmail rawPassword : Option String)
    (hemail : normalizeEmail rawEmail ≠ "")
    (hpw : rawPassword.getD "" ≠ "") :
    (users.find? (fun u => u.email == normalizeEmail rawEmail) = none →
      login secret now users rawEmail rawPassword =
        .unauthorized "Invalid credentials.") ∧
    (∀ u, users.find? (fun u => u.email == normalizeEmail rawEmail) =
        some u →
      verifyPassword (rawPassword.getD "").data u.passwordHash ≠ .ok true →
      login secret now users rawEmail rawPassword =
        .unauthorized "Invalid credentials.") := by
  have hguard :
      ¬((normalizeEmail rawEmail = "" || rawPassword.getD "" = "") = true) :=
    by simp [hemail, hpw]
  constructor
  · intro hfind
    unfold login
    rw [if_neg hguard, hfind]
  · intro u hfind hverify
    unfold login
    rw [if_neg hguard, hfind]
    cases hv : verifyPassword (rawPassword.getD "").data u.passwordHash with
    | error e => simp [hv]
    | ok b =>
      cases b with
      | true => exact absurd hv hverify
      | false => simp [hv]

/-- Witness for C7: an empty store and a store whose only record does not
verify the presented password. -/
theorem C7_login_undifferentiated_witness :
    (normalizeEmail (some "a@x.com") ≠ "" ∧
      (some "pw" : Option String).getD "" ≠ "") ∧
    login 0 0 [] (some "a@x.com") (some "pw") =
      .unauthorized "Invalid credentials." ∧
    login 0 0
        [{ id := "u1", email := "a@x.com", passwordHash := "zz".data,
           profile := DEFAULT_PROFILE, createdAt := "t0" }]
        (some "a@x.com") (some "pw") =
      .unauthorized "Invalid credentials." :=
  ⟨⟨by decide, by decide⟩,
   (C7_login_undifferentiated 0 0 [] (some "a@x.com") (some "pw")
       (by decide) (by decide)).1 (by decide),
   (C7_login_undifferentiated 0 0
       [{ id := "u1", email := "a@x.com", passwordHash := "zz".data,
          profile := DEFAULT_PROFILE, createdAt := "t0" }]
       (some "a@x.com") (some "pw") (by decide) (by decide)).2
     { id := "u1", email := "a@x.com", passwordHash := "zz".data,
       profile := DEFAULT_PROFILE, createdAt := "t0" }
     (by decide) (by decide)⟩

/-- The profile applyProfileFields writes back, in closed form: a supplied
field takes the supplied value; an unsupplied field keeps its stored value
through the ensureProfile merge (its stored value when present, its
read-time default when the key was absent on disk); the identity fields of
the record are untouched. -/
theorem applyProfileFields_eq (body : UpdateBody) (u : UserRecord) :
    applyProfileFields body u =
      { u with profile :=
        { phone := some (body.phone.getD (u.profile.phone.getD "")),
          country := some (body.country.getD (u.profile.country.getD "")),
          language :=
            some (body.language.getD (u.profile.language.getD "en")),
          currencyType :=
            some (body.currencyType.getD
              (u.profile.currencyType.getD "USD")) } } := by
  obtain ⟨be, bp, bc, bl, bcur⟩ := body
  cases bp <;> cases bc <;> cases bl <;> cases bcur <;> rfl

/-- C8: for every UpdateProfile call on an existing user, on every 200
path, only the supplied fields are applied.  The record written back keeps
id, createdAt, passwordHash (and email when the email key is not
supplied); every profile field whose key is not supplied retains its prior
stored value through the ensureProfile merge — its exact stored value when
present on disk, its read-time default when the key was absent — so the
profile view returned to clients (the same view GetProfile serves) is
unchanged in every unsupplied field; and every supplied field takes
exactly the supplied value. -/
theorem C8_partial_update_frame :
    ∀ (users : List UserRecord) (userId : String) (body : UpdateBody)
      (u : UserRecord),
      users.find? (fun c => c.id == userId) = some u →
      ∀ (users1 : List UserRecord) (resp : ProfileResponse),
        updateProfile users userId body = (users1, .ok resp) →
        ∃ u1, users1 = replaceById users userId u1 ∧
          resp = buildProfileResponse u1 ∧
          u1.id = u.id ∧ u1.createdAt = u.createdAt ∧
          u1.passwordHash = u.passwordHash ∧
          (body.email = none → u1.email = u.email) ∧
          (body.phone = none →
            u1.profile.phone = some (u.profile.phone.getD "") ∧
            (buildProfileResponse u1).phone =
              (buildProfileResponse u).phone) ∧
          (body.country = none →
            u1.profile.country = some (u.profile.country.getD "") ∧
            (buildProfileResponse u1).country =
              (buildProfileResponse u).country) ∧
          (body.language = none →
            u1.profile.language = some (u.profile.language.getD "en") ∧
            (buildProfileResponse u1).language =
              (buildProfileResponse u).language) ∧
          (body.currencyType = none →
            u1.profile.currencyType =
              some (u.profile.currencyType.getD "USD") ∧
            (buildProfileResponse u1).currencyType =
              (buildProfileResponse u).currencyType) ∧
          (∀ v, body.phone = some v → u1.profile.phone = some v) ∧
          (∀ v, body.country = some v → u1.profile.country = some v) ∧
          (∀ v, body.language = some v → u1.profile.language = some v) ∧
          (∀ v, body.currencyType = some v →
            u1.profile.currencyType = some v) := by
  intro users userId body u hfind users1 resp hrun
  unfold updateProfile at hrun
  simp only [hfind] at hrun
  cases hbe : body.email with
  | none =>
    simp only [hbe] at hrun
    obtain ⟨h1, h2⟩ := Prod.mk.injEq .. ▸ hrun
    rw [ProfileResult.ok.injEq] at h2
    refine ⟨applyProfileFields body u, h1.symm, h2.symm, ?_, ?_, ?_, ?_,
      ?_, ?_, ?_, ?_, ?_, ?_, ?_, ?_⟩
    · rw [applyProfileFields_eq]
    · rw [applyProfileFields_eq]
    · rw [applyProfileFields_eq]
    · intro _
      rw [applyProfileFields_eq]
    · intro h
      rw [applyProfileFields_eq]
      simp [h, buildProfileResponse, ensureProfile]
    · intro h
      rw [applyProfileFields_eq]
      simp [h, buildProfileResponse, ensureProfile]
    · intro h
      rw [applyProfileFields_eq]
      simp [h, buildProfileResponse, ensureProfile]
    · intro h
      rw [applyProfileFields_eq]
      simp [h, buildProfileResponse, ensureProfile]
    · intro v h
      rw [applyProfileFields_eq]
      simp [h]
    · intro v h
      rw [applyProfileFields_eq]
      simp [h]
    · intro v h
      rw [applyProfileFields_eq]
      simp [h]
    · intro v h
      rw [applyProfileFields_eq]
      simp [h]
  | some rawEmail =>
    simp only [hbe] at hrun
    by_cases hne : normalizeEmail (some rawEmail) = ""
    · rw [if_pos hne] at hrun
      simp at hrun
    · rw [if_neg hne] at hrun
      by_cases hconf : (users.find? (fun c =>
          c.email == normalizeEmail (some rawEmail) &&
            c.id != userId)).isSome = true
      · rw [if_pos hconf] at hrun
        simp at hrun
      · rw [if_neg hconf] at hrun
        obtain ⟨h1, h2⟩ := Prod.mk.injEq .. ▸ hrun
        rw [ProfileResult.ok.injEq] at h2
        refine ⟨applyProfileFields body
            { u with email := normalizeEmail (some rawEmail) },
          h1.symm, h2.symm, ?_, ?_, ?_, ?_, ?_, ?_, ?_, ?_, ?_, ?_, ?_,
          ?_⟩
        · rw [applyProfileFields_eq]
        · rw [applyProfileFields_eq]
        · rw [applyProfileFields_eq]
        · intro h
          simp [hbe] at h
        · intro h
          rw [applyProfileFields_eq]
          simp [h, buildProfileResponse, ensureProfile]
        · intro h
          rw [applyProfileFields_eq]
          simp [h, buildProfileResponse, ensureProfile]
        · intro h
          rw [applyProfileFields_eq]
          simp [h, buildProfileResponse, ensureProfile]
        · intro h
          rw [applyProfileFields_eq]
          simp [h, buildProfileResponse, ensureProfile]
        · intro v h
          rw [applyProfileFields_eq]
          simp [h]
        · intro v h
          rw [applyProfileFields_eq]
          simp [h]
        · intro v h
          rw [applyProfileFields_eq]
          simp [h]
        · intro v h
          rw [applyProfileFields_eq]
          simp [h]

/-- The concrete stored record of the C8 witness: a legacy profile whose
country field is absent from disk. -/
def c8user : UserRecord :=
  { id := "u1", email := "a@x.com", passwordHash := [],
    profile := { phone := some "123", country := none,
                 language := some "es", currencyType := some "EUR" },
    createdAt := "t0" }

/-- The update body of the C8 witness: phone and language supplied, email,
country and currencyType not. -/
def c8body : UpdateBody := ⟨none, some "999", none, some "de", none⟩

/-- The record the C8 witness call writes back. -/
def c8user1 : UserRecord :=
  { c8user with profile :=
    { phone := some "999", country := some "", language := some "de",
      currencyType := some "EUR" } }

/-- The 200 response of the C8 witness call. -/
def c8resp : ProfileResponse :=
  { id := "u1", email := "a@x.com", phone := "999", country := "",
    language := "de", currencyType := "EUR", createdAt := "t0" }

/-- Witness for C8 at the concrete stored record and a concrete body
supplying two of the five keys. -/
theorem C8_partial_update_frame_witness :
    (([c8user].find? (fun c => c.id == "u1") = some c8user) ∧
      updateProfile [c8user] "u1" c8body = ([c8user1], .ok c8resp)) ∧
    (∃ u1, [c8user1] = replaceById [c8user] "u1" u1 ∧
      c8resp = buildProfileResponse u1 ∧
      u1.id = c8user.id ∧ u1.createdAt = c8user.createdAt ∧
      u1.passwordHash = c8user.passwordHash ∧
      (c8body.email = none → u1.email = c8user.email) ∧
      (c8body.phone = none →
        u1.profile.phone = some (c8user.profile.phone.getD "") ∧
        (buildProfileResponse u1).phone =
          (buildProfileResponse c8user).phone) ∧
      (c8body.country = none →
        u1.profile.country = some (c8user.profile.country.getD "") ∧
        (buildProfileResponse u1).country =
          (buildProfileResponse c8user).country) ∧
      (c8body.language = none →
        u1.profile.language = some (c8user.profile.language.getD "en") ∧
        (buildProfileResponse u1).language =
          (buildProfileResponse c8user).language) ∧
      (c8body.currencyType = none →
        u1.profile.currencyType =
          some (c8user.profile.currencyType.getD "USD") ∧
        (buildProfileResponse u1).currencyType =
          (buildProfileResponse c8user).currencyType) ∧
      (∀ v, c8body.phone = some v → u1.profile.phone = some v) ∧
      (∀ v, c8body.country = some v → u1.profile.country = some v) ∧
      (∀ v, c8body.language = some v → u1.profile.language = some v) ∧
      (∀ v, c8body.currencyType = some v →
        u1.profile.currencyType = some v)) :=
  ⟨⟨by decide, by decide⟩,
   C8_partial_update_frame [c8user] "u1" c8body c8user (by decide)
     [c8user1] c8resp (by decide)⟩

/-- C10: GET /profile/:id and PUT /profile/:id produce the same outcome
whatever the Authorization header carries: optionalAuth never rejects
(every verification failure leaves req.user unset and continues), and the
decoded payload handed to the handlers is never consulted, so any two
headers, a missing one included, give identical results. -/
theorem C10_profile_auth_independence :
    (∀ (secret now : Nat) (h1 h2 : Option (Option Token))
        (users : List UserRecord) (userId : String),
      getProfileRoute secret now h1 users userId =
        getProfileRoute secret now h2 users userId) ∧
    (∀ (secret now : Nat) (h1 h2 : Option (Option Token))
        (users : List UserRecord) (userId : String) (body : UpdateBody),
      putProfileRoute secret now h1 users userId body =
        putProfileRoute secret now h2 users userId body) ∧
    (∀ (secret now : Nat) (t : Token) (e : TokenError),
      jwtVerify secret now t = .error e →
      optionalAuth secret now (some (some t)) = none) ∧
    (∀ secret now : Nat, optionalAuth secret now none = none) := by
  refine ⟨fun _ _ _ _ _ _ => rfl, fun _ _ _ _ _ _ _ => rfl, ?_, fun _ _ => rfl⟩
  intro secret now t e h
  simp [optionalAuth, h]

/-- Witness for C10 at a concrete mis-signed token and concrete requests. -/
theorem C10_profile_auth_independence_witness :
    (jwtVerify 0 0 (.malformed "zzz") = .error .invalid) ∧
    getProfileRoute 0 0 (some (some (.malformed "zzz"))) [] "u1" =
      getProfileRoute 0 0 none [] "u1" ∧
    optionalAuth 0 0 (some (some (.malformed "zzz"))) = none :=
  ⟨by decide,
   C10_profile_auth_independence.1 0 0 (some (some (.malformed "zzz")))
     none [] "u1",
   C10_profile_auth_independence.2.2.1 0 0 (.malformed "zzz") .invalid
     (by decide)⟩

/-- The tokens of the C9 counterexample: one well-signed but expired, one
carrying a wrong signature, observed at time 100 with secret 0. -/
def c9payloadOld : TokenPayload :=
  { id := "u1", email := "a@x.com", iat := 0, exp := 50 }

/-- Payload of the mis-signed C9 token (not yet expired at time 100). -/
def c9payloadFresh : TokenPayload :=
  { id := "u1", email := "a@x.com", iat := 0, exp := 1000 }

/-- A token whose signature does not match the secret. -/
def c9badToken : Token := .signed c9payloadFresh []

/-- A well-signed token past its expiration. -/
def c9expiredToken : Token := .signed c9payloadOld (signature 0 c9payloadOld)

/-- C9 counterexample: the two failure kinds exist at the library level
(the embedded jwt.verify distinguishes them), but the repository's own
verification surface does not: requireAuth answers the identical 401
"Invalid or expired token." for the mis-signed and for the expired token,
and optionalAuth swallows both, so no caller of this code can tell
TokenInvalid from TokenExpired. -/
theorem C9_middleware_collapse_counterexample :
    jwtVerify 0 100 c9badToken = .error .invalid ∧
    jwtVerify 0 100 c9expiredToken = .error .expired ∧
    requireAuth 0 100 (some (some c9badToken)) =
      .reject 401 "Invalid or expired token." ∧
    requireAuth 0 100 (some (some c9expiredToken)) =
      .reject 401 "Invalid or expired token." ∧
    requireAuth 0 100 (some (some c9badToken)) =
      requireAuth 0 100 (some (some c9expiredToken)) ∧
    optionalAuth 0 100 (some (some c9badToken)) =
      optionalAuth 0 100 (some (some c9expiredToken)) := by
  refine ⟨by decide, by decide, by decide, by decide, by decide, by decide⟩

/-- C9 (amended): the embedded jwt.verify distinguishes the failure kinds
and trusts no body claim before the signature check, but both middlewares
erase the distinction: requireAuth maps every verification failure to the
same 401 response, and a handler only ever receives a payload whose token
was well-signed and unexpired. -/
theorem C9_token_error_kinds :
    (∀ (secret now : Nat) (raw : String),
      jwtVerify secret now (.malformed raw) = .error .invalid) ∧
    (∀ (secret now : Nat) (p : TokenPayload) (sig : List Nat),
      sig ≠ signature secret p →
      jwtVerify secret now (.signed p sig) = .error .invalid) ∧
    (∀ (secret now : Nat) (p : TokenPayload), p.exp ≤ now →
      jwtVerify secret now (.signed p (signature secret p)) =
        .error .expired) ∧
    (∀ (secret now : Nat) (p : TokenPayload), now < p.exp →
      jwtVerify secret now (.signed p (signature secret p)) = .ok p) ∧
    (∀ (secret now : Nat) (t : Token) (e : TokenError),
      jwtVerify secret now t = .error e →
      requireAuth secret now (some (some t)) =
        .reject 401 "Invalid or expired token.") ∧
    (∀ (secret now : Nat) (hdr : Option (Option Token)) (p : TokenPayload),
      requireAuth secret now hdr = .proceed (some p) →
      ∃ t, hdr = some (some t) ∧ jwtVerify secret now t = .ok p) := by
  refine ⟨?_, ?_, ?_, ?_, ?_, ?_⟩
  · intro secret now raw; rfl
  · intro secret now p sig h
    simp [jwtVerify, h]
  · intro secret now p h
    simp [jwtVerify, h]
  · intro secret now p h
    have h2 : ¬ p.exp ≤ now := by omega
    simp [jwtVerify, h2]
  · intro secret now t e h
    simp [requireAuth, h]
  · intro secret now hdr p h
    match hdr with
    | none => exact absurd h (by simp [requireAuth])
    | some none => exact absurd h (by simp [requireAuth])
    | some (some t) =>
      refine ⟨t, rfl, ?_⟩
      simp only [requireAuth] at h
      cases hv : jwtVerify secret now t with
      | ok q =>
        rw [hv] at h
        cases h
        rfl
      | error e =>
        rw [hv] at h
        cases h

/-- Witness for C9 instantiating the mis-signed, expired, valid and
collapse components at concrete inputs. -/
theorem C9_token_error_kinds_witness :
    jwtVerify 0 100 (.signed c9payloadFresh []) = .error .invalid ∧
    jwtVerify 0 100 (.signed c9payloadOld (signature 0 c9payloadOld)) =
      .error .expired ∧
    jwtVerify 0 100 (.signed c9payloadFresh (signature 0 c9payloadFresh)) =
      .ok c9payloadFresh ∧
    requireAuth 0 100 (some (some c9badToken)) =
      .reject 401 "Invalid or expired token." :=
  ⟨C9_token_error_kinds.2.1 0 100 c9payloadFresh [] (by decide),
   C9_token_error_kinds.2.2.1 0 100 c9payloadOld (by decide),
   C9_token_error_kinds.2.2.2.1 0 100 c9payloadFresh (by decide),
   C9_token_error_kinds.2.2.2.2.1 0 100 c9badToken .invalid (by decide)⟩

/-- Store of the C4 counterexample: a present file of valid JSON that is
not an array. -/
def c4storeNotArray : StoreState :=
  { usersFilePath := "data/users.json",
    fs := { contents := fun _ => .notArray, writable := fun _ => true } }

/-- Store of the C4 witness: a present file JSON.parse rejects. -/
def c4storeCorrupt : StoreState :=
  { usersFilePath := "data/users.json",
    fs := { contents := fun _ => .corrupt "Unexpected token",
            writable := fun _ => true } }

/-- C4 counterexample: a present file whose content is valid JSON but not
an array does NOT fail with the CorruptStore error; readUsers silently
returns the empty collection. -/
theorem C4_non_array_json_counterexample :
    readUsers c4storeNotArray = .ok ([], c4storeNotArray) ∧
    ∀ d, readUsers c4storeNotArray ≠ .error (.corruptStore d) := by
  refine ⟨rfl, ?_⟩
  intro d h
  rw [show readUsers c4storeNotArray = .ok ([], c4storeNotArray) from rfl]
    at h
  exact Except.noConfusion h

/-- C4 (amended): content that JSON.parse rejects yields the CorruptStore
failure carrying the parse diagnostic behind the "Invalid users data
file:" prefix; content that parses as JSON but is not an array is instead
silently treated as the empty collection. -/
theorem C4_corrupt_store_diagnostic :
    (∀ (s : StoreState) (d : String),
      s.fs.contents s.usersFilePath = .corrupt d →
      readUsers s =
        .error (.corruptStore ("Invalid users data file: " ++ d))) ∧
    (∀ s : StoreState, s.fs.contents s.usersFilePath = .notArray →
      readUsers s = .ok ([], s)) := by
  constructor
  · intro s d h
    simp [readUsers, ensureUsersFile, ensureAt, h]
  · intro s h
    simp [readUsers, ensureUsersFile, ensureAt, h]

/-- Witness for C4 at a concrete corrupt file and a concrete non-array
file. -/
theorem C4_corrupt_store_diagnostic_witness :
    readUsers c4storeCorrupt =
      .error (.corruptStore
        ("Invalid users data file: " ++ "Unexpected token")) ∧
    readUsers c4storeNotArray = .ok ([], c4storeNotArray) :=
  ⟨C4_corrupt_store_diagnostic.1 c4storeCorrupt "Unexpected token" rfl,
   C4_corrupt_store_diagnostic.2 c4storeNotArray rfl⟩

/-- What a successful ensureAt did: it kept the writability map, left a
present file at the path, and either changed nothing or — only possible at
a writable path — created the empty-array file there. -/
theorem ensureAt_spec {fs : FileSystem} {path : String} {fs1 : FileSystem}
    (h : ensureAt fs path = .ok fs1) :
    fs1.writable = fs.writable ∧ fs1.contents path ≠ .absent ∧
    (fs1 = fs ∨ (fs.writable path = true ∧
      fs1 = { fs with contents := fun q =>
        if q = path then .arr [] else fs.contents q })) := by
  cases hc : fs.contents path with
  | absent =>
    simp only [ensureAt, hc] at h
    by_cases hw : fs.writable path = true
    · rw [if_pos hw] at h
      simp only [Except.ok.injEq] at h
      subst h
      refine ⟨rfl, by simp, Or.inr ⟨hw, rfl⟩⟩
    · rw [if_neg hw] at h
      cases h
  | blank =>
    simp only [ensureAt, hc, Except.ok.injEq] at h
    subst h
    refine ⟨rfl, ?_, Or.inl rfl⟩
    simp [hc]
  | arr users =>
    simp only [ensureAt, hc, Except.ok.injEq] at h
    subst h
    refine ⟨rfl, ?_, Or.inl rfl⟩
    simp [hc]
  | notArray =>
    simp only [ensureAt, hc, Except.ok.injEq] at h
    subst h
    refine ⟨rfl, ?_, Or.inl rfl⟩
    simp [hc]
  | corrupt d =>
    simp only [ensureAt, hc, Except.ok.injEq] at h
    subst h
    refine ⟨rfl, ?_, Or.inl rfl⟩
    simp [hc]

/-- What a successful ensureUsersFile did: writability kept; the active
path kept or switched to scratch; a present file at the active path; and
contents unchanged except possibly for creating the empty-array file at
the (writable) active path. -/
theorem ensureUsersFile_spec {s s1 : StoreState}
    (h : ensureUsersFile s = .ok s1) :
    s1.fs.writable = s.fs.writable ∧
    (s1.usersFilePath = s.usersFilePath ∨
      s1.usersFilePath = TMP_USER_DB_PATH) ∧
    s1.fs.contents s1.usersFilePath ≠ .absent ∧
    (s1.fs.contents = s.fs.contents ∨
      (s.fs.writable s1.usersFilePath = true ∧
       s1.fs.contents = fun q =>
         if q = s1.usersFilePath then FileContent.arr []
         else s.fs.contents q)) := by
  unfold ensureUsersFile at h
  cases he : ensureAt s.fs s.usersFilePath with
  | ok fsA =>
    simp only [he, Except.ok.injEq] at h
    subst h
    obtain ⟨hw, hpres, hdisj⟩ := ensureAt_spec he
    refine ⟨hw, Or.inl rfl, hpres, ?_⟩
    rcases hdisj with h1 | ⟨h1, h2⟩
    · exact Or.inl (by rw [h1])
    · exact Or.inr ⟨h1, by rw [h2]⟩
  | error e =>
    simp only [he] at h
    by_cases hp : s.usersFilePath ≠ TMP_USER_DB_PATH
    · rw [if_pos hp] at h
      cases he2 : ensureAt s.fs TMP_USER_DB_PATH with
      | ok fsB =>
        simp only [he2, Except.ok.injEq] at h
        subst h
        obtain ⟨hw, hpres, hdisj⟩ := ensureAt_spec he2
        refine ⟨hw, Or.inr rfl, hpres, ?_⟩
        rcases hdisj with h1 | ⟨h1, h2⟩
        · exact Or.inl (by rw [h1])
        · exact Or.inr ⟨h1, by rw [h2]⟩
      | error e2 =>
        rw [he2] at h
        exact Except.noConfusion h
    · rw [if_neg hp] at h
      exact Except.noConfusion h

/-- A successful writeAt happened at a writable path and replaced exactly
that file with the serialized collection. -/
theorem writeAt_spec {fs : FileSystem} {path : String}
    {users : List UserRecord} {fs1 : FileSystem}
    (h : writeAt fs path users = .ok fs1) :
    fs.writable path = true ∧
    fs1 = { fs with contents := fun q =>
      if q = path then .arr users else fs.contents q } := by
  unfold writeAt at h
  by_cases hw : fs.writable path = true
  · rw [if_pos hw] at h
    simp only [Except.ok.injEq] at h
    exact ⟨hw, h.symm⟩
  · rw [if_neg hw] at h
    cases h

/-- A failed writeAt happened at an unwritable path. -/
theorem writeAt_error {fs : FileSystem} {path : String}
    {users : List UserRecord} {e : StoreError}
    (h : writeAt fs path users = .error e) :
    fs.writable path = false := by
  unfold writeAt at h
  by_cases hw : fs.writable path = true
  · rw [if_pos hw] at h
    cases h
  · rw [if_neg hw] at h
    simp at hw
    exact hw

/-- What a successful writeUsers did: the active path was kept or switched
to scratch and is writable; the whole collection now sits there; every
other path is untouched; writability is untouched. -/
theorem writeUsers_spec {s : StoreState} {users : List UserRecord}
    {s1 : StoreState} (h : writeUsers s users = .ok s1) :
    (s1.usersFilePath = s.usersFilePath ∨
      s1.usersFilePath = TMP_USER_DB_PATH) ∧
    s.fs.writable s1.usersFilePath = true ∧
    s1.fs.contents s1.usersFilePath = .arr users ∧
    (∀ q, q ≠ s1.usersFilePath → s1.fs.contents q = s.fs.contents q) ∧
    s1.fs.writable = s.fs.writable := by
  unfold writeUsers at h
  cases he : ensureUsersFile s with
  | error e => rw [he] at h; exact Except.noConfusion h
  | ok sA =>
    simp only [he] at h
    obtain ⟨hwA, hpA, _hpresA, hdA⟩ := ensureUsersFile_spec he
    cases hw1 : writeAt sA.fs sA.usersFilePath users with
    | ok fs2 =>
      simp only [hw1, Except.ok.injEq] at h
      subst h
      obtain ⟨hwrit, hfs2⟩ := writeAt_spec hw1
      subst hfs2
      refine ⟨hpA, ?_, by simp, ?_, hwA⟩
      · rw [← hwA]; exact hwrit
      · intro q hq
        simp only [if_neg hq]
        rcases hdA with h1 | ⟨_, h2⟩
        · rw [h1]
        · rw [h2]
          simp only [if_neg hq]
    | error e2 =>
      simp only [hw1] at h
      have hroA : sA.fs.writable sA.usersFilePath = false := writeAt_error hw1
      by_cases hp2 : sA.usersFilePath ≠ TMP_USER_DB_PATH
      · rw [if_pos hp2] at h
        have hcontA : sA.fs.contents = s.fs.contents := by
          rcases hdA with h1 | ⟨h1, _⟩
          · exact h1
          · rw [hwA] at hroA
            rw [h1] at hroA
            cases hroA
        cases he2 : ensureUsersFile
            { usersFilePath := TMP_USER_DB_PATH, fs := sA.fs } with
        | error e3 => rw [he2] at h; exact Except.noConfusion h
        | ok sB =>
          simp only [he2] at h
          obtain ⟨hwB, hpB, _hpresB, hdB⟩ := ensureUsersFile_spec he2
          have hpathB : sB.usersFilePath = TMP_USER_DB_PATH := by
            rcases hpB with h1 | h1 <;> exact h1
          cases hw2 : writeAt sB.fs TMP_USER_DB_PATH users with
          | error e4 => rw [hw2] at h; exact Except.noConfusion h
          | ok fs3 =>
            simp only [hw2, Except.ok.injEq] at h
            subst h
            obtain ⟨hwrit2, hfs3⟩ := writeAt_spec hw2
            subst hfs3
            have hpath1 : sB.usersFilePath = TMP_USER_DB_PATH := hpathB
            refine ⟨Or.inr hpath1, ?_, ?_, ?_, by rw [hwB, hwA]⟩
            · rw [hpath1, ← hwA, ← hwB]; exact hwrit2
            · rw [hpath1]; simp
            · intro q hq
              rw [hpath1] at hq
              simp only [if_neg hq]
              rcases hdB with h1 | ⟨_, h2⟩
              · rw [h1, hcontA]
              · rw [h2]
                simp only [hpathB, if_neg hq, hcontA]
      · rw [if_neg hp2] at h
        exact Except.noConfusion h

/-- Reading a store whose active file holds the serialized collection
returns exactly that collection and leaves the store untouched. -/
theorem readUsers_of_arr {s : StoreState} {users : List UserRecord}
    (h : s.fs.contents s.usersFilePath = .arr users) :
    readUsers s = .ok (users, s) := by
  simp [readUsers, ensureUsersFile, ensureAt, h]

/-- C3: when creating or writing the backing file fails with the
read-only condition while the active path is not yet the scratch path, the
store switches its active path to the scratch path and retries there once:
the retry succeeds against a writable scratch (and a subsequent Load on
the same store reads back exactly what was saved, from the scratch path,
with no other path touched); if the scratch also fails the operation is
fatal; and once the active path is the scratch path it stays there and no
other path is ever written or reverted to, for writes and reads alike. -/
theorem C3_scratch_relocation :
    (∀ (s : StoreState) (users : List UserRecord),
      s.usersFilePath ≠ TMP_USER_DB_PATH →
      s.fs.writable s.usersFilePath = false →
      s.fs.contents s.usersFilePath = .absent →
      s.fs.writable TMP_USER_DB_PATH = true →
      ∃ s1, writeUsers s users = .ok s1 ∧
        s1.usersFilePath = TMP_USER_DB_PATH ∧
        s1.fs.contents TMP_USER_DB_PATH = .arr users ∧
        (∀ q, q ≠ TMP_USER_DB_PATH →
          s1.fs.contents q = s.fs.contents q) ∧
        readUsers s1 = .ok (users, s1)) ∧
    (∀ (s : StoreState) (users : List UserRecord),
      s.usersFilePath ≠ TMP_USER_DB_PATH →
      s.fs.writable s.usersFilePath = false →
      s.fs.contents s.usersFilePath = .absent →
      s.fs.writable TMP_USER_DB_PATH = false →
      s.fs.contents TMP_USER_DB_PATH = .absent →
      writeUsers s users = .error (.readonlyFs TMP_USER_DB_PATH)) ∧
    (∀ (s : StoreState) (users : List UserRecord),
      s.usersFilePath = TMP_USER_DB_PATH →
      ∀ s1, writeUsers s users = .ok s1 →
        s1.usersFilePath = TMP_USER_DB_PATH ∧
        s1.fs.contents TMP_USER_DB_PATH = .arr users ∧
        ∀ q, q ≠ TMP_USER_DB_PATH →
          s1.fs.contents q = s.fs.contents q) ∧
    (∀ s : StoreState, s.usersFilePath = TMP_USER_DB_PATH →
      ∀ (r : List UserRecord) (s1 : StoreState),
        readUsers s = .ok (r, s1) →
        s1.usersFilePath = TMP_USER_DB_PATH ∧
        ∀ q, q ≠ TMP_USER_DB_PATH →
          s1.fs.contents q = s.fs.contents q) := by
  refine ⟨?_, ?_, ?_, ?_⟩
  · intro s users hpath hro habs htmpw
    have hex : ∃ s1, writeUsers s users = .ok s1 := by
      cases hc : s.fs.contents TMP_USER_DB_PATH with
      | absent =>
        exact ⟨_, by
          simp [writeUsers, ensureUsersFile, ensureAt, writeAt,
            habs, hro, hc, htmpw, hpath]
          rfl⟩
      | blank =>
        exact ⟨_, by
          simp [writeUsers, ensureUsersFile, ensureAt, writeAt,
            habs, hro, hc, htmpw, hpath]
          rfl⟩
      | arr us =>
        exact ⟨_, by
          simp [writeUsers, ensureUsersFile, ensureAt, writeAt,
            habs, hro, hc, htmpw, hpath]
          rfl⟩
      | notArray =>
        exact ⟨_, by
          simp [writeUsers, ensureUsersFile, ensureAt, writeAt,
            habs, hro, hc, htmpw, hpath]
          rfl⟩
      | corrupt d =>
        exact ⟨_, by
          simp [writeUsers, ensureUsersFile, ensureAt, writeAt,
            habs, hro, hc, htmpw, hpath]
          rfl⟩
    obtain ⟨s1, h1⟩ := hex
    obtain ⟨hpdisj, hwrit, hcont, hunch, hwmap⟩ := writeUsers_spec h1
    have hp1 : s1.usersFilePath = TMP_USER_DB_PATH := by
      rcases hpdisj with h2 | h2
      · rw [h2] at hwrit
        rw [hro] at hwrit
        cases hwrit
      · exact h2
    refine ⟨s1, h1, hp1, ?_, ?_, readUsers_of_arr hcont⟩
    · rw [← hp1]
      exact hcont
    · intro q hq
      apply hunch
      rw [hp1]
      exact hq
  · intro s users hpath hro habs htmpw hc
    simp [writeUsers, ensureUsersFile, ensureAt, writeAt, habs, hro, hc,
      htmpw, hpath]
  · intro s users hp s1 h1
    obtain ⟨hpdisj, hwrit, hcont, hunch, hwmap⟩ := writeUsers_spec h1
    have hp1 : s1.usersFilePath = TMP_USER_DB_PATH := by
      rcases hpdisj with h2 | h2
      · rw [hp] at h2
        exact h2
      · exact h2
    refine ⟨hp1, ?_, ?_⟩
    · rw [← hp1]
      exact hcont
    · intro q hq
      apply hunch
      rw [hp1]
      exact hq
  · intro s hp r s1 h1
    unfold readUsers at h1
    cases he : ensureUsersFile s with
    | error e =>
      rw [he] at h1
      exact Except.noConfusion h1
    | ok sA =>
      simp only [he] at h1
      obtain ⟨hwA, hpA, hpresA, hdA⟩ := ensureUsersFile_spec he
      have hpathA : sA.usersFilePath = TMP_USER_DB_PATH := by
        rcases hpA with h2 | h2
        · rw [hp] at h2
          exact h2
        · exact h2
      have main : ∀ q, q ≠ TMP_USER_DB_PATH →
          sA.fs.contents q = s.fs.contents q := by
        intro q hq
        rcases hdA with h2 | ⟨_, h2⟩
        · rw [h2]
        · rw [h2]
          simp [hpathA, hq]
      cases hcc : sA.fs.contents sA.usersFilePath with
      | absent =>
        rw [hcc] at h1
        exact Except.noConfusion h1
      | corrupt d =>
        rw [hcc] at h1
        exact Except.noConfusion h1
      | blank =>
        simp only [hcc, Except.ok.injEq, Prod.mk.injEq] at h1
        obtain ⟨-, h3⟩ := h1
        subst h3
        exact ⟨hpathA, main⟩
      | arr us =>
        simp only [hcc, Except.ok.injEq, Prod.mk.injEq] at h1
        obtain ⟨-, h3⟩ := h1
        subst h3
        exact ⟨hpathA, main⟩
      | notArray =>
        simp only [hcc, Except.ok.injEq, Prod.mk.injEq] at h1
        obtain ⟨-, h3⟩ := h1
        subst h3
        exact ⟨hpathA, main⟩

/-- The C3 witness store: primary path absent and unwritable (the
read-only serverless filesystem), scratch path writable. -/
def c3primaryRO : StoreState :=
  { usersFilePath := "data/users.json",
    fs := { contents := fun _ => .absent,
            writable := fun q => q == TMP_USER_DB_PATH } }

/-- The C3 witness store with nothing writable at all. -/
def c3dead : StoreState :=
  { usersFilePath := "data/users.json",
    fs := { contents := fun _ => .absent, writable := fun _ => false } }

/-- The C3 witness store already relocated to the scratch path. -/
def c3tmp : StoreState :=
  { usersFilePath := TMP_USER_DB_PATH,
    fs := { contents := fun _ => .absent, writable := fun _ => true } }

/-- Witness for C3 instantiating all four components at concrete
stores. -/
theorem C3_scratch_relocation_witness :
    (∃ s1, writeUsers c3primaryRO [] = .ok s1 ∧
      s1.usersFilePath = TMP_USER_DB_PATH ∧
      s1.fs.contents TMP_USER_DB_PATH = .arr [] ∧
      (∀ q, q ≠ TMP_USER_DB_PATH →
        s1.fs.contents q = c3primaryRO.fs.contents q) ∧
      readUsers s1 = .ok ([], s1)) ∧
    writeUsers c3dead [] = .error (.readonlyFs TMP_USER_DB_PATH) ∧
    (∀ s1, writeUsers c3tmp [] = .ok s1 →
      s1.usersFilePath = TMP_USER_DB_PATH ∧
      s1.fs.contents TMP_USER_DB_PATH = .arr [] ∧
      ∀ q, q ≠ TMP_USER_DB_PATH →
        s1.fs.contents q = c3tmp.fs.contents q) ∧
    (∀ (r : List UserRecord) (s1 : StoreState),
      readUsers c3tmp = .ok (r, s1) →
      s1.usersFilePath = TMP_USER_DB_PATH ∧
      ∀ q, q ≠ TMP_USER_DB_PATH →
        s1.fs.contents q = c3tmp.fs.contents q) :=
  ⟨C3_scratch_relocation.1 c3primaryRO [] (by decide) (by decide) rfl
     (by decide),
   C3_scratch_relocation.2.1 c3dead [] (by decide) rfl rfl rfl rfl,
   C3_scratch_relocation.2.2.1 c3tmp [] rfl,
   C3_scratch_relocation.2.2.2 c3tmp rfl⟩

/-- The stored record the C1 counterexample run starts from. -/
def c1user : UserRecord :=
  { id := "u1", email := "a@x.com", passwordHash := [],
    profile := DEFAULT_PROFILE, createdAt := "t0" }

/-- The two concurrently issued UpdateProfile handlers of the C1
counterexample: handler 0 sets only phone, handler 1 sets only country. -/
def c1ops : Nat → HandlerFn := fun i =>
  if i = 0 then updateProfileOp "u1" ⟨none, some "111", none, none, none⟩
  else updateProfileOp "u1" ⟨none, none, some "France", none, none⟩

/-- The interleaving the event loop can produce when both requests arrive
together: both readUsers calls resolve against the empty write queue
before either write is enqueued. -/
def c1trace : List QEvent := [.read 0, .read 1, .write 0, .write 1]

/-- C1 counterexample: under an admissible schedule of two concurrently
issued UpdateProfile calls on the same user, each setting a distinct
single field, the final stored record does NOT reflect both changes: the
second queued write was computed from the same snapshot as the first and
overwrites it, losing the phone update entirely (phone is back to the
empty default instead of "111"). -/
theorem C1_lost_update_counterexample :
    admissible c1trace = true ∧
    (qRun c1ops [c1user] c1trace).file =
      [{ id := "u1", email := "a@x.com", passwordHash := [],
         profile := { phone := some "", country := some "France",
                      language := some "en", currencyType := some "USD" },
         createdAt := "t0" }] := by
  refine ⟨by decide, by decide⟩

/-- C1 (amended): the write queue orders only the file writes; when the
same two UpdateProfile calls run sequentially instead — each call's read
resolving after the previous call's write — both field changes survive:
the final stored record carries the new phone and the new country, for any
prior record and any values. -/
theorem C1_sequential_updates_apply_all (u : UserRecord) (v0 v1 : String) :
    (qRun (fun i =>
        if i = 0 then updateProfileOp u.id ⟨none, some v0, none, none, none⟩
        else updateProfileOp u.id ⟨none, none, some v1, none, none⟩)
      [u] [.read 0, .write 0, .read 1, .write 1]).file =
      [{ u with profile :=
          { phone := some v0, country := some v1,
            language := some (u.profile.language.getD "en"),
            currencyType := some (u.profile.currencyType.getD "USD") } }] := by
  simp [qRun, qStep, updateProfileOp, updateProfile, applyProfileFields,
    ensureProfile, replaceById, buildProfileResponse]

/-- At most one stored record per normalized email. -/
def EmailsUnique (users : List UserRecord) : Prop :=
  users.Pairwise (fun a b => a.email ≠ b.email)

/-- A sequence of Register calls, each running against the collection the
previous call left behind. -/
def runRegisters (reqs : List (RegisterEnv × Option String × Option String))
    (users : List UserRecord) : List UserRecord :=
  reqs.foldl (fun acc r => (register r.1 acc r.2.1 r.2.2).1) users

/-- One Register call preserves per-email uniqueness of the collection it
writes: it only appends when no record with the normalized email is
found. -/
theorem register_preserves_unique (env : RegisterEnv)
    (users : List UserRecord) (e p : Option String)
    (h : EmailsUnique users) : EmailsUnique (register env users e p).1 := by
  unfold register
  by_cases hg : (normalizeEmail e = "" || (p.getD "") = "") = true
  · rw [if_pos hg]
    exact h
  · rw [if_neg hg]
    cases hf : users.find? (fun u => u.email == normalizeEmail e) with
    | some u =>
      simp only [hf]
      exact h
    | none =>
      simp only [hf]
      unfold EmailsUnique
      rw [List.pairwise_append]
      refine ⟨h, List.pairwise_singleton _ _, ?_⟩
      intro a ha b hb
      rw [List.mem_singleton] at hb
      subst hb
      intro hcontra
      have h2 := List.find?_eq_none.mp hf a ha
      simp only [beq_iff_eq] at h2
      exact h2 hcontra

/-- A Register call whose normalized email is already stored signals the
duplicate and performs no write: the collection it returns is the input
collection untouched. -/
theorem register_duplicate (env : RegisterEnv) (users : List UserRecord)
    (e p : Option String) (hne : normalizeEmail e ≠ "")
    (hpw : p.getD "" ≠ "") (u : UserRecord) (hu : u ∈ users)
    (heq : u.email = normalizeEmail e) :
    register env users e p =
      (users, .duplicate "Email is already registered.") := by
  unfold register
  rw [if_neg (by simp [hne, hpw])]
  have hex : ∃ w, users.find? (fun x => x.email == normalizeEmail e) =
      some w := by
    cases hf : users.find? (fun x => x.email == normalizeEmail e) with
    | some w => exact ⟨w, rfl⟩
    | none =>
      have h2 := List.find?_eq_none.mp hf u hu
      simp [heq] at h2
  obtain ⟨w, hw⟩ := hex
  simp only [hw]

/-- The two concurrently issued Register handlers of the C2
counterexample, with the same email and distinct fresh ids and salts. -/
def c2env0 : RegisterEnv :=
  { newId := "id-1", saltBytes := List.replicate 16 1, createdAt := "t1",
    secret := 0, nowEpoch := 0 }

/-- Environment of the second concurrent Register of the C2
counterexample. -/
def c2env1 : RegisterEnv :=
  { newId := "id-2", saltBytes := List.replicate 16 2, createdAt := "t2",
    secret := 0, nowEpoch := 0 }

/-- Whether a Register response is the 201 created success. -/
def isCreated : RegisterResult → Bool
  | .created _ _ _ _ => true
  | _ => false

/-- The two concurrent same-email Register handlers as queued units. -/
def c2ops : Nat → HandlerFn := fun i =>
  if i = 0 then registerOp c2env0 (some "a@x.com") (some "pw")
  else registerOp c2env1 (some "a@x.com") (some "pw")

/-- Both Register reads resolve before either write is enqueued. -/
def c2trace : List QEvent := [.read 0, .read 1, .write 0, .write 1]

/-- C2 counterexample: two concurrently issued Register calls with the
same email, under an admissible schedule, both read the empty snapshot and
both answer 201 created — not exactly one success with the rest
DuplicateEmail.  (The store afterwards holds the one record of the
last-enqueued write.) -/
theorem C2_concurrent_register_two_successes :
    admissible c2trace = true ∧
    (qRun c2ops [] c2trace).snaps 0 = some [] ∧
    (qRun c2ops [] c2trace).snaps 1 = some [] ∧
    isCreated (register c2env0 [] (some "a@x.com") (some "pw")).2 = true ∧
    isCreated (register c2env1 [] (some "a@x.com") (some "pw")).2 = true ∧
    (qRun c2ops [] c2trace).file.map (fun u => u.id) = ["id-2"] := by
  refine ⟨by decide, by decide, by decide, by decide, by decide, by decide⟩

/-- C2 (amended): along any sequence of Register calls each seeing the
previous call's effect, at most one stored record exists per normalized
email, and a Register whose normalized email equals a stored record's
email signals DuplicateEmail and performs no write; but concurrently
interleaved Register calls with the same email may each report success
(as the counterexample shows), so the exactly-one-success clause does not
hold for the concurrent case. -/
theorem C2_register_email_uniqueness :
    (∀ (reqs : List (RegisterEnv × Option String × Option String))
        (users : List UserRecord), EmailsUnique users →
      EmailsUnique (runRegisters reqs users)) ∧
    (∀ (env : RegisterEnv) (users : List UserRecord) (e p : Option String),
      normalizeEmail e ≠ "" → p.getD "" ≠ "" →
      ∀ u ∈ users, u.email = normalizeEmail e →
      register env users e p =
        (users, .duplicate "Email is already registered.")) := by
  constructor
  · intro reqs
    induction reqs with
    | nil =>
      intro users h
      exact h
    | cons r rs ih =>
      intro users h
      exact ih _ (register_preserves_unique _ _ _ _ h)
  · intro env users e p hne hpw u hu heq
    exact register_duplicate env users e p hne hpw u hu heq

/-- The existing stored record of the C2 witness. -/
def c2existing : UserRecord :=
  { id := "u1", email := "a@x.com", passwordHash := [],
    profile := DEFAULT_PROFILE, createdAt := "t0" }

/-- Witness for C2: one Register into the empty store keeps uniqueness,
and a Register against a store already holding the email signals the
duplicate without writing. -/
theorem C2_register_email_uniqueness_witness :
    (EmailsUnique ([] : List UserRecord) ∧
      EmailsUnique (runRegisters [(c2env0, some "a@x.com", some "pw")] [])) ∧
    ((normalizeEmail (some "a@x.com") ≠ "" ∧
        (some "pw" : Option String).getD "" ≠ "" ∧
        c2existing ∈ [c2existing] ∧
        c2existing.email = normalizeEmail (some "a@x.com")) ∧
      register c2env1 [c2existing] (some "a@x.com") (some "pw") =
        ([c2existing], .duplicate "Email is already registered.")) :=
  ⟨⟨List.Pairwise.nil,
    C2_register_email_uniqueness.1 [(c2env0, some "a@x.com", some "pw")] []
      List.Pairwise.nil⟩,
   ⟨by decide, by decide, List.mem_singleton.mpr rfl, by decide⟩,
   C2_register_email_uniqueness.2 c2env1 [c2existing] (some "a@x.com")
     (some "pw") (by decide) (by decide) c2existing
     (List.mem_singleton.mpr rfl) (by decide)⟩

end TripMaker
